import Mathlib

/-!
Verification development for the o1-engineer repository.

The definitions below are a shallow embedding of the Python sources
`o1-eng.py` and `model_manager.py`: pure string functions model the
regex-based parsing, an explicit `FS` record models the filesystem, and
oracles (`ai : ... → Option String`) model the model round-trips.
-/

namespace O1Eng

/-- The backtick character, written via its code point. -/
def fenceChar : Char := Char.ofNat 96

/-- `\w` of Python's `re` restricted to ASCII (our inputs are ASCII):
letters, digits and underscore. -/
def isWordChar (c : Char) : Bool := c.isAlphanum || c = '_'

/-- `\s` of Python's `re` restricted to ASCII: space, tab, newline,
carriage return, vertical tab and form feed. -/
def isPySpace (c : Char) : Bool :=
  c = ' ' || c = '\t' || c = '\n' || c = '\r' || c = Char.ofNat 11 || c = Char.ofNat 12

/-- Python `str.strip()` on a character list: drop leading and trailing
whitespace. -/
def pyStrip (cs : List Char) : List Char :=
  ((cs.dropWhile isPySpace).reverse.dropWhile isPySpace).reverse

/-- Python `str.strip()` on a `String`. -/
def pyStripS (s : String) : String := String.mk (pyStrip s.data)

/-- Splitting on a single separator character (the semantics of Python
`str.split(sep)` for a one-character separator), written on character
lists so that it evaluates by `rfl`/`decide`. -/
def splitOnCharAux (sep : Char) (cur : List Char) : List Char → List (List Char)
  | [] => [cur.reverse]
  | c :: rest =>
    if c = sep then cur.reverse :: splitOnCharAux sep [] rest
    else splitOnCharAux sep (c :: cur) rest

/-- Split a character list on a separator character. -/
def splitOnChar (sep : Char) (cs : List Char) : List (List Char) :=
  splitOnCharAux sep [] cs

/-- Scan for the first occurrence of three consecutive backticks and
return the remainder after it: the opening fence of the code-block
regex used by `apply_creation_steps`. -/
def dropThruFence : List Char → Option (List Char)
  | [] => none
  | a :: rest =>
    match rest with
    | b :: c :: r =>
      if a = fenceChar ∧ b = fenceChar ∧ c = fenceChar then some r
      else dropThruFence rest
    | _ => none

/-- Split a character list at the first occurrence of three consecutive
backticks: returns the content before the fence and the remainder after
it.  This is the lazy group `([\s\S]*?)` followed by the closing fence. -/
def splitAtFence (acc : List Char) : List Char → Option (List Char × List Char)
  | [] => none
  | a :: rest =>
    match rest with
    | b :: c :: r =>
      if a = fenceChar ∧ b = fenceChar ∧ c = fenceChar then some (acc.reverse, r)
      else splitAtFence (a :: acc) rest
    | _ => none

/-- The remainder returned by `dropThruFence` is strictly shorter than
its input. -/
theorem dropThruFence_length : ∀ {cs rest : List Char},
    dropThruFence cs = some rest → rest.length < cs.length := by
  intro cs
  induction cs with
  | nil => intro rest h; cases h
  | cons a tl ih =>
    intro rest h
    cases tl with
    | nil =>
      have hnone : dropThruFence [a] = none := rfl
      rw [hnone] at h
      cases h
    | cons b tl2 =>
      cases tl2 with
      | nil =>
        have hnone : dropThruFence [a, b] = none := rfl
        rw [hnone] at h
        cases h
      | cons c r =>
        have hstep : dropThruFence (a :: b :: c :: r) =
            if a = fenceChar ∧ b = fenceChar ∧ c = fenceChar then some r
            else dropThruFence (b :: c :: r) := rfl
        rw [hstep] at h
        by_cases hf : a = fenceChar ∧ b = fenceChar ∧ c = fenceChar
        · rw [if_pos hf] at h
          cases h
          simp only [List.length_cons]
          omega
        · rw [if_neg hf] at h
          have := ih h
          simp only [List.length_cons] at this ⊢
          omega

/-- The remainder returned by `splitAtFence` is strictly shorter than
its input. -/
theorem splitAtFence_length : ∀ {cs acc content rest : List Char},
    splitAtFence acc cs = some (content, rest) → rest.length < cs.length := by
  intro cs
  induction cs with
  | nil => intro acc content rest h; cases h
  | cons a tl ih =>
    intro acc content rest h
    cases tl with
    | nil =>
      have hnone : splitAtFence acc [a] = none := rfl
      rw [hnone] at h
      cases h
    | cons b tl2 =>
      cases tl2 with
      | nil =>
        have hnone : splitAtFence acc [a, b] = none := rfl
        rw [hnone] at h
        cases h
      | cons c r =>
        have hstep : splitAtFence acc (a :: b :: c :: r) =
            if a = fenceChar ∧ b = fenceChar ∧ c = fenceChar then some (acc.reverse, r)
            else splitAtFence (a :: acc) (b :: c :: r) := rfl
        rw [hstep] at h
        by_cases hf : a = fenceChar ∧ b = fenceChar ∧ c = fenceChar
        · rw [if_pos hf] at h
          cases h
          simp only [List.length_cons]
          omega
        · rw [if_neg hf] at h
          have := ih h
          simp only [List.length_cons] at this ⊢
          omega

/-- The recursion of `re.findall` on the code-block pattern of
`apply_creation_steps`, with a fuel argument (one unit per match):
each match opens with three backticks, an optional greedy run of word
characters (the language tag), a greedy run of whitespace, then
captures lazily up to the next three backticks.  Matches are
non-overlapping, scanned left to right. -/
def findBlocksFuel : Nat → List Char → List (List Char)
  | 0, _ => []
  | fuel + 1, cs =>
    match dropThruFence cs with
    | none => []
    | some rest =>
      match splitAtFence [] ((rest.dropWhile isWordChar).dropWhile isPySpace) with
      | none => []
      | some (content, rest3) => content :: findBlocksFuel fuel rest3

/-- Embedding of `re.findall` on the code-block pattern of
`apply_creation_steps`.  Each match consumes at least one character, so
`cs.length` units of fuel always suffice (`findBlocksFuel_adequate`). -/
def findBlocks (cs : List Char) : List (List Char) :=
  findBlocksFuel cs.length cs

/-- Any fuel of at least `cs.length` computes the same block list: the
fuel in `findBlocks` never runs out. -/
theorem findBlocksFuel_adequate : ∀ (f1 f2 : Nat) (cs : List Char),
    cs.length ≤ f1 → cs.length ≤ f2 → findBlocksFuel f1 cs = findBlocksFuel f2 cs := by
  intro f1
  induction f1 with
  | zero =>
    intro f2 cs h1 _
    have hcs : cs = [] := List.length_eq_zero.mp (Nat.le_zero.mp h1)
    subst hcs
    cases f2 with
    | zero => rfl
    | succ m => rfl
  | succ k ih =>
    intro f2 cs h1 h2
    cases f2 with
    | zero =>
      have hcs : cs = [] := List.length_eq_zero.mp (Nat.le_zero.mp h2)
      subst hcs
      rfl
    | succ m =>
      show (match dropThruFence cs with
        | none => []
        | some rest =>
          match splitAtFence [] ((rest.dropWhile isWordChar).dropWhile isPySpace) with
          | none => []
          | some (content, rest3) => content :: findBlocksFuel k rest3) =
        (match dropThruFence cs with
        | none => []
        | some rest =>
          match splitAtFence [] ((rest.dropWhile isWordChar).dropWhile isPySpace) with
          | none => []
          | some (content, rest3) => content :: findBlocksFuel m rest3)
      cases hdrop : dropThruFence cs with
      | none => rfl
      | some rest =>
        dsimp only
        cases hsplit : splitAtFence [] ((rest.dropWhile isWordChar).dropWhile isPySpace) with
        | none => rfl
        | some pr =>
          obtain ⟨content, rest3⟩ := pr
          dsimp only
          have hr : rest.length < cs.length := dropThruFence_length hdrop
          have h3 : rest3.length <
              ((rest.dropWhile isWordChar).dropWhile isPySpace).length :=
            splitAtFence_length hsplit
          have i1 : (rest.dropWhile isWordChar).length ≤ rest.length :=
            (List.dropWhile_sublist _).length_le
          have i2 : ((rest.dropWhile isWordChar).dropWhile isPySpace).length ≤
              (rest.dropWhile isWordChar).length :=
            (List.dropWhile_sublist _).length_le
          rw [ih m rest3 (by omega) (by omega)]

/-- Drop an expected literal run of characters, returning the remainder
when the run is present at the head. -/
def dropLit : List Char → List Char → Option (List Char)
  | [], cs => some cs
  | _ :: _, [] => none
  | p :: ps, c :: cs => if p = c then dropLit ps cs else none

/-- The kind of creation directive, from the marker line. -/
inductive ItemType where
  | file
  | folder
deriving DecidableEq, Repr

/-- Embedding of `re.match(r"### (FILE|FOLDER): (.+)", code.strip())` in
`apply_creation_steps`: anchored at the start of the stripped block, the
path is the non-empty remainder of the marker line (greedy `.+`, which
stops at a newline). -/
def matchDirective (code : List Char) : Option (ItemType × List Char) :=
  let s := pyStrip code
  match dropLit "### FILE: ".data s with
  | some rest =>
    let path := rest.takeWhile (fun c => c ≠ '\n')
    if path.isEmpty then none else some (ItemType.file, path)
  | none =>
    match dropLit "### FOLDER: ".data s with
    | some rest =>
      let path := rest.takeWhile (fun c => c ≠ '\n')
      if path.isEmpty then none else some (ItemType.folder, path)
    | none => none

/-- Does `re.sub(r"### FILE: .+\n", "", code, count=1)` match at the head
of `cs`?  If so, return the remainder after the removed region: the
marker literal, a non-empty run of non-newline characters, and the
terminating newline. -/
def fileMarkerAt (cs : List Char) : Option (List Char) :=
  match dropLit "### FILE: ".data cs with
  | none => none
  | some rest =>
    let t := rest.takeWhile (fun c => c ≠ '\n')
    if t.isEmpty then none
    else
      match rest.drop t.length with
      | '\n' :: rest2 => some rest2
      | _ => none

/-- Embedding of `re.sub(r"### FILE: .+\n", "", code, count=1)` in
`apply_creation_steps`: remove the leftmost occurrence of the marker
line (including its newline), leaving the rest unchanged. -/
def stripFirstFileMarker : List Char → List Char
  | [] => []
  | c :: rest =>
    match fileMarkerAt (c :: rest) with
    | some rem => rem
    | none => c :: stripFirstFileMarker rest

/-- Embedding of `os.path.dirname` for relative slash-separated paths:
everything up to the last slash, with trailing slashes of the head
removed unless the head is all slashes. -/
def dirname (p : String) : String :=
  let cs := p.data
  if cs.contains '/' then
    let hd := (cs.reverse.dropWhile (fun c => c ≠ '/')).reverse
    let stripped := (hd.reverse.dropWhile (fun c => c = '/')).reverse
    if stripped.isEmpty then String.mk hd else String.mk stripped
  else ""

/-- A model of the filesystem as seen by the executor: file contents,
existing directories, and the set of paths for which `os.access(path,
os.W_OK)` is true. -/
structure FS where
  files : List (String × String)
  dirs : List String
  writable : List String
deriving DecidableEq, Repr

/-- `os.path.exists`: the path names an existing file or directory. -/
def FS.existsPath (fs : FS) (p : String) : Bool :=
  fs.dirs.contains p || fs.files.any (fun kv => kv.1 == p)

/-- The chain of ancestor paths created by `os.makedirs`, e.g.
`"a/b/c" ↦ ["a", "a/b", "a/b/c"]`. -/
def pathChain (p : String) : List String :=
  let parts := splitOnChar '/' p.data
  (List.range parts.length).map
    (fun i => String.mk (List.intercalate ['/'] (parts.take (i + 1))))

/-- `os.makedirs(p, exist_ok=True)`: record the directory and its
ancestors, skipping those already present. -/
def FS.mkdirs (fs : FS) (p : String) : FS :=
  { fs with dirs := fs.dirs ++ (pathChain p).filter (fun q => ¬ fs.dirs.contains q) }

/-- `open(path, "w").write(content)`: overwrite an existing entry or
append a new one. -/
def FS.writeFile (fs : FS) (p content : String) : FS :=
  if fs.files.any (fun kv => kv.1 == p) then
    { fs with files := fs.files.map (fun kv => if kv.1 == p then (p, content) else kv) }
  else
    { fs with files := fs.files ++ [(p, content)] }

/-- The per-block body of the loop in `apply_creation_steps`: blocks
whose marker cannot be determined are skipped (`continue`), as are
blocks whose path does not exist or is not writable; FOLDER directives
run `makedirs`, FILE directives strip the marker line, create the parent
directory if absent, and overwrite the file. -/
def applyBlock (fs : FS) (code : List Char) : FS :=
  match matchDirective code with
  | none => fs
  | some (itemType, pathChars) =>
    let path := String.mk pathChars
    if ¬ fs.existsPath path then fs
    else if ¬ fs.writable.contains path then fs
    else
      match itemType with
      | ItemType.folder => fs.mkdirs path
      | ItemType.file =>
        let content := String.mk (pyStrip (stripFirstFileMarker code))
        let directory := dirname path
        let fs1 :=
          if directory ≠ "" ∧ ¬ fs.existsPath directory then fs.mkdirs directory else fs
        fs1.writeFile path content

/-- One parse-and-apply pass of `apply_creation_steps` (the body of its
`try`): `none` models the `ValueError` raised when the response contains
no fenced code blocks; otherwise every extracted block is processed in
order. -/
def applyCreationOnce (creation_response : String) (fs : FS) : Option FS :=
  let blocks := findBlocks creation_response.data
  if blocks.isEmpty then none else some (blocks.foldl applyBlock fs)

/-- Observable outcome of `apply_creation_steps`: the returned boolean,
the final filesystem, the `time.sleep` durations in seconds in the
order they happen, the number of parse attempts performed, and the
response echoed on terminal failure (if any). -/
structure CreationOutcome where
  success : Bool
  fs : FS
  sleeps : List Nat
  attempts : Nat
  echoed : Option String
deriving DecidableEq, Repr

/-- The recursion of `apply_creation_steps(creation_response,
added_files, retry_count)` with `max_retries = 3`, carrying a fuel
argument (one unit per retry).  The oracle `ai` gives the reply of
`chat_with_ai` at each retry round (`none` models a failed call).  On
parse failure with `retry_count < 3` the code sleeps `2 ** retry_count`
seconds and recurses with `retry_count + 1`; once retries are exhausted
it reports failure and echoes the unparsable response.  The two cases
differ only in the fuel-exhausted inner branch, which the wrapper never
reaches. -/
def applyCreationFuel (ai : Nat → Option String) :
    Nat → String → FS → Nat → CreationOutcome
  | 0, creation_response, fs, retry_count =>
    match applyCreationOnce creation_response fs with
    | some fs1 => ⟨true, fs1, [], 1, none⟩
    | none =>
      if retry_count < 3 then
        match ai retry_count with
        | some _ => ⟨false, fs, [], 0, none⟩
        | none => ⟨false, fs, [2 ^ retry_count], 1, none⟩
      else ⟨false, fs, [], 1, some creation_response⟩
  | fuel + 1, creation_response, fs, retry_count =>
    match applyCreationOnce creation_response fs with
    | some fs1 => ⟨true, fs1, [], 1, none⟩
    | none =>
      if retry_count < 3 then
        match ai retry_count with
        | some newResponse =>
          let r := applyCreationFuel ai fuel newResponse fs (retry_count + 1)
          ⟨r.success, r.fs, 2 ^ retry_count :: r.sleeps, r.attempts + 1, r.echoed⟩
        | none => ⟨false, fs, [2 ^ retry_count], 1, none⟩
      else ⟨false, fs, [], 1, some creation_response⟩

/-- Embedding of `apply_creation_steps(creation_response, added_files,
retry_count)`.  The fuel `3 - retry_count` is exact: every recursive
call keeps the invariant `fuel = 3 - retry_count`, so the
fuel-exhausted branch of `applyCreationFuel` is never taken
(`applyCreationFuel_adequate`). -/
def apply_creation_steps (ai : Nat → Option String) (creation_response : String)
    (fs : FS) (retry_count : Nat) : CreationOutcome :=
  applyCreationFuel ai (3 - retry_count) creation_response fs retry_count

/-- Any fuel of at least `3 - retry_count` computes the same outcome:
the fuel in `apply_creation_steps` never runs out. -/
theorem applyCreationFuel_adequate (ai : Nat → Option String) :
    ∀ (f1 f2 : Nat) (creation_response : String) (fs : FS) (retry_count : Nat),
    3 - retry_count ≤ f1 → 3 - retry_count ≤ f2 →
    applyCreationFuel ai f1 creation_response fs retry_count =
      applyCreationFuel ai f2 creation_response fs retry_count := by
  intro f1
  induction f1 with
  | zero =>
    intro f2 creation_response fs retry_count h1 h2
    have hrc : ¬ retry_count < 3 := by omega
    cases f2 with
    | zero => rfl
    | succ m =>
      rw [applyCreationFuel, applyCreationFuel]
      cases applyCreationOnce creation_response fs with
      | some fs1 => rfl
      | none =>
        dsimp only
        rw [if_neg hrc, if_neg hrc]
  | succ k ih =>
    intro f2 creation_response fs retry_count h1 h2
    cases f2 with
    | zero =>
      have hrc : ¬ retry_count < 3 := by omega
      rw [applyCreationFuel, applyCreationFuel]
      cases applyCreationOnce creation_response fs with
      | some fs1 => rfl
      | none =>
        dsimp only
        rw [if_neg hrc, if_neg hrc]
    | succ m =>
      rw [applyCreationFuel, applyCreationFuel]
      cases applyCreationOnce creation_response fs with
      | some fs1 => rfl
      | none =>
        dsimp only
        by_cases hrc : retry_count < 3
        · rw [if_pos hrc, if_pos hrc]
          cases ai retry_count with
          | none => rfl
          | some newResponse =>
            dsimp only
            rw [ih m newResponse fs (retry_count + 1) (by omega) (by omega)]
        · rw [if_neg hrc, if_neg hrc]

/-! ## `model_manager.py` -/

/-- The provider families of `ModelProvider`. -/
inductive ModelProvider where
  | openai
  | anthropic
  | ollama
deriving DecidableEq, Repr

/-- `str(provider)` as it appears in formatted error messages. -/
def ModelProvider.str : ModelProvider → String
  | ModelProvider.openai => "ModelProvider.OPENAI"
  | ModelProvider.anthropic => "ModelProvider.ANTHROPIC"
  | ModelProvider.ollama => "ModelProvider.OLLAMA"

/-- The string value of each `ModelProvider` member. -/
def ModelProvider.ofString : String → Option ModelProvider
  | "openai" => some ModelProvider.openai
  | "anthropic" => some ModelProvider.anthropic
  | "ollama" => some ModelProvider.ollama
  | _ => none

/-- The Python exceptions that can cross the boundaries we model:
the three `ModelError` subclasses of `model_manager.py`, plus an
arbitrary provider-native exception carrying its `str(e)`. -/
inductive PyExc where
  | modelConfigurationError (msg : String)
  | modelAPIError (msg : String)
  | modelNotFoundError (msg : String)
  | nativeError (msg : String)
deriving DecidableEq, Repr

/-- `str(e)` of an exception. -/
def PyExc.message : PyExc → String
  | PyExc.modelConfigurationError m => m
  | PyExc.modelAPIError m => m
  | PyExc.modelNotFoundError m => m
  | PyExc.nativeError m => m

/-- One entry of `MODEL_CONFIG`. -/
structure ProviderConfig where
  max_tokens : Nat
  supports_tools : Bool
  streaming : Bool
  requires_api_key : Bool
  env_key : Option String
deriving DecidableEq, Repr

/-- The static `MODEL_CONFIG` registry of `model_manager.py`. -/
def MODEL_CONFIG : List (String × ProviderConfig) :=
  [ ("anthropic/claude-3-5-sonnet-latest",
      ⟨8192, true, true, true, some "ANTHROPIC_API_KEY"⟩),
    ("ollama/qwen2.5-coder:14b",
      ⟨8192, true, true, false, none⟩),
    ("openai/gpt-4o",
      ⟨8192, true, true, true, some "OPENAI_API_KEY"⟩) ]

/-- `MODEL_CONFIG.get(model_name)`. -/
def modelConfigGet (model_name : String) : Option ProviderConfig :=
  (MODEL_CONFIG.find? (fun kv => kv.1 == model_name)).map (fun kv => kv.2)

/-- Embedding of `load_model_config()`: the environment is a partial map
from variable names to values; `if not model` treats both an unset and
an empty `MODEL` as missing. -/
def load_model_config (env : String → Option String) : Except PyExc String :=
  match env "MODEL" with
  | none => Except.error (PyExc.modelConfigurationError "MODEL not found in environment variables")
  | some model =>
    if model = "" then
      Except.error (PyExc.modelConfigurationError "MODEL not found in environment variables")
    else if (MODEL_CONFIG.any (fun kv => kv.1 == model)) then Except.ok model
    else Except.error (PyExc.modelNotFoundError ("Model " ++ model ++ " not found in configuration"))

/-- Embedding of `parse_model_name`: split at the first `/`; a missing
separator or an unrecognized provider raises
`ModelConfigurationError(f"Invalid model name format: ...")` (the
`ValueError` from unpacking or from the enum constructor is caught). -/
def parse_model_name (model_name : String) : Except PyExc (ModelProvider × String) :=
  match splitOnChar '/' model_name.data with
  | [] => Except.error (PyExc.modelConfigurationError ("Invalid model name format: " ++ model_name))
  | [_] => Except.error (PyExc.modelConfigurationError ("Invalid model name format: " ++ model_name))
  | providerChars :: rest =>
    match ModelProvider.ofString (String.mk providerChars) with
    | some provider => Except.ok (provider, String.mk (List.intercalate ['/'] rest))
    | none => Except.error (PyExc.modelConfigurationError ("Invalid model name format: " ++ model_name))

/-- Embedding of `validate_api_keys(model_name)`: look the model up in
the registry, and when it requires an API key, fail unless the named
environment variable holds a non-empty value (`if not api_key`). -/
def validate_api_keys (env : String → Option String) (model_name : String) :
    Except PyExc Unit :=
  match modelConfigGet model_name with
  | none => Except.error (PyExc.modelNotFoundError ("Model " ++ model_name ++ " not found in configuration"))
  | some config =>
    if config.requires_api_key then
      match config.env_key with
      | some key =>
        match env key with
        | none => Except.error (PyExc.modelConfigurationError
            ("API key " ++ key ++ " required for " ++ model_name ++ " not found in environment variables"))
        | some v =>
          if v = "" then
            Except.error (PyExc.modelConfigurationError
              ("API key " ++ key ++ " required for " ++ model_name ++ " not found in environment variables"))
          else Except.ok ()
      | none => Except.error (PyExc.modelConfigurationError
          ("API key required for " ++ model_name ++ " not found in environment variables"))
    else Except.ok ()

/-- The state of a constructed `ModelManager`.  `client` is the lazily
initialized `_client` field, which `__init__` leaves as `None`; it is
only built on first use of the `client` property. -/
structure ModelManager where
  full_model_name : String
  provider : ModelProvider
  model_name : String
  client : Option Unit
deriving DecidableEq, Repr

/-- Embedding of `ModelManager.__init__`: load the configured model
name, parse it, set `_client = None`, and validate the API keys. -/
def ModelManager.init (env : String → Option String) : Except PyExc ModelManager := do
  let full ← load_model_config env
  let pm ← parse_model_name full
  let mm : ModelManager := ⟨full, pm.1, pm.2, none⟩
  let _ ← validate_api_keys env mm.full_model_name
  pure mm

/-- The normalized chat response shape produced by the formatters. -/
structure Usage where
  total_tokens : Nat
deriving DecidableEq, Repr

/-- `NormalizedChatResponse` (the dict returned by the `_format_*`
response formatters). -/
structure NormalizedChatResponse where
  content : String
  tool_calls : List String
  usage : Usage
deriving DecidableEq, Repr

/-- A chat message: a role and a content string. -/
structure ChatMessage where
  role : String
  content : String
deriving DecidableEq, Repr

/-- Embedding of `ModelManager._format_messages`: for Anthropic the list
is rebuilt from the same role/content pairs; otherwise it is returned
as is.  Either way the result is the same list. -/
def format_messages (provider : ModelProvider) (messages : List ChatMessage) :
    List ChatMessage :=
  if provider = ModelProvider.anthropic then
    messages.map (fun msg => ⟨msg.role, msg.content⟩)
  else messages

/-- Embedding of `ModelManager.chat_completion`: format the messages,
dispatch to the adapter of the resolved provider (each adapter is an
oracle that either returns a normalized response or raises), and wrap
any exception from the `try` block in `ModelAPIError`, embedding
`str(e)` in the new message. -/
def chat_completion (provider : ModelProvider)
    (ollamaChat anthropicChat openaiChat :
      List ChatMessage → Except PyExc NormalizedChatResponse)
    (messages : List ChatMessage) : Except PyExc NormalizedChatResponse :=
  let formatted := format_messages provider messages
  let attempt : Except PyExc NormalizedChatResponse :=
    match provider with
    | ModelProvider.ollama => ollamaChat formatted
    | ModelProvider.anthropic => anthropicChat formatted
    | ModelProvider.openai => openaiChat formatted
  match attempt with
  | Except.ok r => Except.ok r
  | Except.error e =>
    Except.error (PyExc.modelAPIError
      ("Error in chat completion with " ++ provider.str ++ ": " ++ e.message))

/-- The `message` sub-dict of a native ollama response. -/
structure OllamaMessage where
  content : Option String
  tool_calls : Option (List String)
deriving DecidableEq, Repr

/-- A native ollama chat response: an optional `message` dict plus the
native token-usage counters, which the formatter ignores. -/
structure OllamaResponse where
  message : Option OllamaMessage
  prompt_eval_count : Option Nat
  eval_count : Option Nat
deriving DecidableEq, Repr

/-- Embedding of `ModelManager._format_ollama_response`:
`response.get("message", {}).get("content", "")` and likewise for
`tool_calls`, with `usage` hard-coded to `{"total_tokens": 0}`. -/
def format_ollama_response (response : OllamaResponse) : NormalizedChatResponse :=
  { content := ((response.message.map OllamaMessage.content).join).getD ""
    tool_calls := ((response.message.map OllamaMessage.tool_calls).join).getD []
    usage := ⟨0⟩ }

/-! ## `o1-eng.py`: conversation history and added-file context -/

/-- `MAX_FILE_SIZE = 200 * 1024` (o1-eng.py). -/
def MAX_FILE_SIZE : Nat := 200 * 1024

/-- `MAX_TOTAL_SIZE = MAX_FILE_SIZE * 3` (o1-eng.py). -/
def MAX_TOTAL_SIZE : Nat := MAX_FILE_SIZE * 3

/-- Embedding of the history update in `chat_with_ai` for a non-edit
request: append the user message and the AI reply, then keep only the
last 20 entries when the list has grown past 20
(`conversation_history[-20:]`). -/
def update_conversation_history (hist : List String)
    (user_message last_ai_response : String) : List String :=
  let h := hist ++ [user_message, last_ai_response]
  if 20 < h.length then h.drop (h.length - 20) else h

/-- Embedding of the total-size check after `/add` ingestion in `main`:
`added_files` as an ordered list of path/content pairs, with the whole
set cleared when the summed content lengths exceed `MAX_TOTAL_SIZE`. -/
def add_total_size_check (added_files : List (String × String)) :
    List (String × String) :=
  let total_size := (added_files.map (fun kv => kv.2.length)).sum
  if MAX_TOTAL_SIZE < total_size then [] else added_files

/-! ## `o1-eng.py`: edit path -/

/-- Python `dict` assignment `d[k] = v`: update the value in place when
the key is present, otherwise append the new pair. -/
def dictInsert (d : List (String × String)) (k v : String) :
    List (String × String) :=
  if d.any (fun kv => kv.1 == k) then
    d.map (fun kv => if kv.1 == k then (k, v) else kv)
  else d ++ [(k, v)]

/-- Python `d.get(k)` / `k in d` combined: the value stored at `k`. -/
def dictLookup (d : List (String × String)) (k : String) : Option String :=
  (d.find? (fun kv => kv.1 == k)).map (fun kv => kv.2)

/-- The value at the *last* occurrence of a key in a sequence of pairs. -/
def lastAssoc (segs : List (String × String)) (k : String) : Option String :=
  (segs.reverse.find? (fun kv => kv.1 == k)).map (fun kv => kv.2)

/-- The newline-join of collected instruction lines
(`"\n".join(current_instructions)`). -/
def joinLines (xs : List (List Char)) : String :=
  String.mk (List.intercalate ['\n'] xs)

/-- Python truthiness of the `current_file` variable: `None` and the
empty string are falsy, every other string is truthy. -/
def pyTruthy : Option String → Bool
  | none => false
  | some f => ¬ f.isEmpty

/-- The flush `if current_file: instructions[current_file] = "\n".join(
current_instructions)` of `parse_edit_instructions`: skipped when
`current_file` is `None` or the empty string (Python truthiness). -/
def flushDict (current_file : Option String) (current_instructions : List (List Char))
    (acc : List (String × String)) : List (String × String) :=
  match current_file with
  | some f => if f.isEmpty then acc else dictInsert acc f (joinLines current_instructions)
  | none => acc

/-- The same flush recorded as a segment sequence instead of a dict
update, with the same truthiness check. -/
def flushSeg (current_file : Option String)
    (current_instructions : List (List Char)) : List (String × String) :=
  match current_file with
  | some f => if f.isEmpty then [] else [(f, joinLines current_instructions)]
  | none => []

/-- The loop of `parse_edit_instructions`, one call per remaining line
(lines as character lists), carrying `current_file`,
`current_instructions` and the `instructions` dict; non-blank lines are
collected only under a truthy `current_file` (`and current_file`), and
the `[]` case is the final flush after the loop. -/
def peiStep (lines : List (List Char)) (current_file : Option String)
    (current_instructions : List (List Char))
    (acc : List (String × String)) : List (String × String) :=
  match lines with
  | [] => flushDict current_file current_instructions acc
  | line :: rest =>
    match dropLit "File: ".data line with
    | some after =>
      peiStep rest (some (String.mk (pyStrip after))) []
        (flushDict current_file current_instructions acc)
    | none =>
      if ¬ (pyStrip line).isEmpty ∧ pyTruthy current_file then
        peiStep rest current_file (current_instructions ++ [pyStrip line]) acc
      else peiStep rest current_file current_instructions acc

/-- Embedding of `parse_edit_instructions(response)`: split the
response on newlines; a line starting with `File: ` flushes the pending
block and opens a new one keyed by the stripped rest of the line
(`line[6:].strip()`); any other non-blank line, once a file is open, is
stripped and collected. -/
def parse_edit_instructions (response : String) : List (String × String) :=
  peiStep (splitOnChar '\n' response.data) none [] []

/-- Same recursion as `peiStep`, but recording each flushed
`(path, instruction block)` pair in marker order instead of folding it
into a dict: the sequence of segments of the response, one per
`File:` marker line. -/
def segRun (lines : List (List Char)) (current_file : Option String)
    (current_instructions : List (List Char)) : List (String × String) :=
  match lines with
  | [] => flushSeg current_file current_instructions
  | line :: rest =>
    match dropLit "File: ".data line with
    | some after =>
      flushSeg current_file current_instructions ++
        segRun rest (some (String.mk (pyStrip after))) []
    | none =>
      if ¬ (pyStrip line).isEmpty ∧ pyTruthy current_file then
        segRun rest current_file (current_instructions ++ [pyStrip line])
      else segRun rest current_file current_instructions

/-- The `(path, instruction block)` segments of an edit response, one
per `File:` marker line, in marker order. -/
def parse_edit_segments (response : String) : List (String × String) :=
  segRun (splitOnChar '\n' response.data) none []

/-- The `APPLY_EDITS_PROMPT` constant of `o1-eng.py`. -/
def APPLY_EDITS_PROMPT : String :=
  "\nRewrite an entire file or files using edit instructions provided by another AI.\n\nEnsure the entire content is rewritten from top to bottom incorporating the specified changes.\n\n# Steps\n\n1. **Receive Input:** Obtain the file(s) and the edit instructions. The files can be in various formats (e.g., .txt, .docx).\n2. **Analyze Content:** Understand the content and structure of the file(s).\n3. **Review Instructions:** Carefully examine the edit instructions to comprehend the required changes.\n4. **Apply Changes:** Rewrite the entire content of the file(s) from top to bottom, incorporating the specified changes.\n5. **Verify Consistency:** Ensure that the rewritten content maintains logical consistency and cohesiveness.\n6. **Final Review:** Perform a final check to ensure all instructions were followed and the rewritten content meets the quality standards.\n7. Do not include any explanations, additional text, or code block markers (such as ```html or ```).\n\nProvide the output as the FULLY NEW WRITTEN file(s).\nNEVER ADD ANY CODE BLOCK MARKER AT THE BEGINNING OF THE FILE OR AT THE END OF THE FILE (such as ```html or ```). \n\n"

/-- The prompt built in `apply_edit_instructions` for one file. -/
def mkApplyPrompt (file_path content instr : String) : String :=
  APPLY_EDITS_PROMPT ++ "\n\nOriginal File: " ++ file_path ++ "\nContent:\n" ++
    content ++ "\n\nEdit Instructions:\n" ++ instr ++ "\n\nUpdated File Content:"

/-- The loop of `apply_edit_instructions` over `original_files`,
accumulating `modified_files` together with the list of file paths for
which a model round-trip was issued.  A file found in
`edit_instructions` is re-sent to the model (`ai`); a falsy reply
(`None` or the empty string) leaves it out of `modified_files`; a file
absent from the map is passed through with its original content and is
not sent to the model. -/
def aeiStep (ai : String → Option String) (edit_instructions : List (String × String))
    (acc : List (String × String) × List String)
    (original_files : List (String × String)) : List (String × String) × List String :=
  match original_files with
  | [] => acc
  | (file_path, content) :: rest =>
    match dictLookup edit_instructions file_path with
    | some instr =>
      (match ai (mkApplyPrompt file_path content instr) with
       | some r =>
         if r = "" then aeiStep ai edit_instructions (acc.1, acc.2 ++ [file_path]) rest
         else aeiStep ai edit_instructions
           (acc.1 ++ [(file_path, pyStripS r)], acc.2 ++ [file_path]) rest
       | none => aeiStep ai edit_instructions (acc.1, acc.2 ++ [file_path]) rest)
    | none => aeiStep ai edit_instructions (acc.1 ++ [(file_path, content)], acc.2) rest

/-- Embedding of `apply_edit_instructions(edit_instructions,
original_files)`: the resulting `modified_files` together with the
paths that were re-sent to the model. -/
def apply_edit_instructions (ai : String → Option String)
    (edit_instructions original_files : List (String × String)) :
    List (String × String) × List String :=
  aeiStep ai edit_instructions ([], []) original_files

/-! ## Claim theorems -/

/-- C9: for every native ollama response, the normalized chat response
produced by `_format_ollama_response` reports `usage.total_tokens = 0`,
whether or not the native response carries token-usage counters. -/
theorem C9_ollama_usage_always_zero (response : OllamaResponse) :
    (format_ollama_response response).usage.total_tokens = 0 := rfl

/-- C7: whenever the aggregate size of the added-file context exceeds
`MAX_TOTAL_SIZE` after a bulk `/add` ingestion, the entire set of added
files is cleared, not just the files in excess of the ceiling. -/
theorem C7_oversize_clears_whole_set (added_files : List (String × String))
    (h : MAX_TOTAL_SIZE < (added_files.map (fun kv => kv.2.length)).sum) :
    add_total_size_check added_files = [] := by
  unfold add_total_size_check
  rw [if_pos h]

/-- A file content one character past the 600 KB aggregate ceiling. -/
def oversizeContent : String := String.mk (List.replicate (MAX_TOTAL_SIZE + 1) 'a')

/-- Witness for C7 at a concrete one-file context just past the ceiling. -/
theorem C7_oversize_clears_whole_set_witness :
    add_total_size_check [("big.txt", oversizeContent)] = [] := by
  apply C7_oversize_clears_whole_set
  have hlen : oversizeContent.length = MAX_TOTAL_SIZE + 1 := by
    show (List.replicate (MAX_TOTAL_SIZE + 1) 'a').length = MAX_TOTAL_SIZE + 1
    exact List.length_replicate _ _
  simp [hlen]

/-- C5: the conversation history is truncated FIFO on overflow: after an
append of a user/assistant pair that brings it past 20 entries, the
oldest entries are dropped so that exactly 20 remain. -/
theorem C5_history_fifo_truncation (hist : List String) (u a : String)
    (h : 20 < hist.length + 2) :
    (update_conversation_history hist u a).length = 20 ∧
    update_conversation_history hist u a =
      hist.drop (hist.length + 2 - 20) ++ [u, a] := by
  have hlen : (hist ++ [u, a]).length = hist.length + 2 := by simp
  have hcond : 20 < (hist ++ [u, a]).length := by omega
  unfold update_conversation_history
  rw [if_pos hcond]
  constructor
  · rw [List.length_drop]
    omega
  · rw [hlen, List.drop_append_of_le_length (by omega)]

/-- A conversation history of 20 entries (10 turn pairs). -/
def hist20 : List String :=
  ["u1", "a1", "u2", "a2", "u3", "a3", "u4", "a4", "u5", "a5",
   "u6", "a6", "u7", "a7", "u8", "a8", "u9", "a9", "u10", "a10"]

/-- Witness for C5: appending the 21st turn pair to a 20-entry history
evicts the oldest turn pair and keeps exactly 20 entries. -/
theorem C5_history_fifo_truncation_witness :
    (update_conversation_history hist20 "u11" "a11").length = 20 ∧
    update_conversation_history hist20 "u11" "a11" =
      hist20.drop (hist20.length + 2 - 20) ++ ["u11", "a11"] :=
  C5_history_fifo_truncation hist20 "u11" "a11" (by decide)

/-- The provider dispatch inside the `try` of
`ModelManager.chat_completion`. -/
def dispatch_chat (provider : ModelProvider)
    (ollamaChat anthropicChat openaiChat :
      List ChatMessage → Except PyExc NormalizedChatResponse)
    (messages : List ChatMessage) : Except PyExc NormalizedChatResponse :=
  match provider with
  | ModelProvider.ollama => ollamaChat messages
  | ModelProvider.anthropic => anthropicChat messages
  | ModelProvider.openai => openaiChat messages

/-- C6: every failure of the underlying transport during
`chat_completion` is wrapped in `ModelAPIError` with `str(e)` of the
original exception embedded in the message, and no provider-native
exception ever reaches the caller: every error the caller can see is a
`ModelAPIError`. -/
theorem C6_wraps_transport_failures (provider : ModelProvider)
    (ollamaChat anthropicChat openaiChat :
      List ChatMessage → Except PyExc NormalizedChatResponse)
    (messages : List ChatMessage) (e : PyExc)
    (h : dispatch_chat provider ollamaChat anthropicChat openaiChat
      (format_messages provider messages) = Except.error e) :
    chat_completion provider ollamaChat anthropicChat openaiChat messages =
      Except.error (PyExc.modelAPIError
        ("Error in chat completion with " ++ provider.str ++ ": " ++ e.message)) ∧
    ∀ e2, chat_completion provider ollamaChat anthropicChat openaiChat messages =
      Except.error e2 → ∃ m, e2 = PyExc.modelAPIError m := by
  have hbody : chat_completion provider ollamaChat anthropicChat openaiChat messages =
      match dispatch_chat provider ollamaChat anthropicChat openaiChat
        (format_messages provider messages) with
      | Except.ok r => Except.ok r
      | Except.error e =>
        Except.error (PyExc.modelAPIError
          ("Error in chat completion with " ++ provider.str ++ ": " ++ e.message)) := by
    unfold chat_completion dispatch_chat
    cases provider <;> rfl
  rw [hbody, h]
  refine ⟨rfl, ?_⟩
  intro e2 he2
  exact ⟨_, (Except.error.injEq _ _).mp he2.symm⟩

/-- Witness for C6: an ollama transport raising a native exception with
message `"boom"` surfaces as a `ModelAPIError` embedding that message. -/
theorem C6_wraps_transport_failures_witness :
    chat_completion ModelProvider.ollama
      (fun _ => Except.error (PyExc.nativeError "boom"))
      (fun _ => Except.error (PyExc.nativeError "x"))
      (fun _ => Except.error (PyExc.nativeError "x"))
      [⟨"user", "hi"⟩] =
    Except.error (PyExc.modelAPIError
      "Error in chat completion with ModelProvider.OLLAMA: boom") :=
  (C6_wraps_transport_failures ModelProvider.ollama
    (fun _ => Except.error (PyExc.nativeError "boom"))
    (fun _ => Except.error (PyExc.nativeError "x"))
    (fun _ => Except.error (PyExc.nativeError "x"))
    [⟨"user", "hi"⟩] (PyExc.nativeError "boom") rfl).1

/-- An environment selecting a model identifier that is not a key of
`MODEL_CONFIG`. -/
def unknownModelEnv : String → Option String :=
  fun k => if k = "MODEL" then some "openai/gpt-5" else none

/-- C3 counterexample: for a model identifier absent from the registry,
`ModelManager` construction fails with `ModelNotFoundError`, not with
`ModelConfigurationError` as the claim states. -/
theorem C3_counterexample_not_configuration_error :
    ModelManager.init unknownModelEnv =
      Except.error (PyExc.modelNotFoundError
        "Model openai/gpt-5 not found in configuration") ∧
    ∀ m, ModelManager.init unknownModelEnv ≠
      Except.error (PyExc.modelConfigurationError m) := by
  refine ⟨rfl, ?_⟩
  intro m h
  rw [show ModelManager.init unknownModelEnv =
    Except.error (PyExc.modelNotFoundError
      "Model openai/gpt-5 not found in configuration") from rfl] at h
  simp at h

/-- C3 amended: for every environment whose selected model identifier is
non-empty and absent from the Provider Registry, `ModelManager`
construction fails with `ModelNotFoundError` (a `ModelError` distinct
from `ModelConfigurationError`); and construction never builds a
client — `_client` is `None` on every successfully constructed
manager. -/
theorem C3_unknown_model_fails_no_client (env : String → Option String) (m : String)
    (h1 : env "MODEL" = some m) (h2 : m ≠ "")
    (h3 : ∀ kv ∈ MODEL_CONFIG, kv.1 ≠ m) :
    ModelManager.init env =
      Except.error (PyExc.modelNotFoundError
        ("Model " ++ m ++ " not found in configuration")) ∧
    ∀ (env2 : String → Option String) (mm : ModelManager),
      ModelManager.init env2 = Except.ok mm → mm.client = none := by
  have hinit : ∀ env2 : String → Option String, ModelManager.init env2 =
      Except.bind (load_model_config env2) (fun full =>
        Except.bind (parse_model_name full) (fun pm =>
          Except.bind (validate_api_keys env2 full) (fun _ =>
            Except.ok ⟨full, pm.1, pm.2, none⟩))) := fun _ => rfl
  constructor
  · have hany : MODEL_CONFIG.any (fun kv => kv.1 == m) = false := by
      rw [List.any_eq_false]
      intro kv hkv
      simp only [beq_iff_eq]
      exact h3 kv hkv
    have hload : load_model_config env =
        Except.error (PyExc.modelNotFoundError
          ("Model " ++ m ++ " not found in configuration")) := by
      unfold load_model_config
      rw [h1]
      dsimp only
      rw [if_neg h2, hany]
      rfl
    rw [hinit env, hload]
    rfl
  · intro env2 mm h
    rw [hinit env2] at h
    cases hl : load_model_config env2 with
    | error e => rw [hl] at h; cases h
    | ok full =>
      rw [hl] at h
      dsimp only [Except.bind] at h
      cases hp : parse_model_name full with
      | error e => rw [hp] at h; cases h
      | ok pm =>
        rw [hp] at h
        dsimp only [Except.bind] at h
        cases hv : validate_api_keys env2 full with
        | error e => rw [hv] at h; cases h
        | ok u =>
          rw [hv] at h
          dsimp only [Except.bind] at h
          cases h
          rfl

/-- Witness for C3 at a concrete unregistered model identifier. -/
theorem C3_unknown_model_fails_no_client_witness :
    ModelManager.init (fun k => if k = "MODEL" then some "foo/bar" else none) =
      Except.error (PyExc.modelNotFoundError
        "Model foo/bar not found in configuration") :=
  (C3_unknown_model_fails_no_client
    (fun k => if k = "MODEL" then some "foo/bar" else none) "foo/bar"
    rfl (by decide) (by decide)).1

/-- A filesystem with a writable file `a.txt` holding `"old"`. -/
def fsOld : FS := ⟨[("a.txt", "old")], [], ["a.txt"]⟩

/-- `fsOld` after `a.txt` has been overwritten with `"NEW"`. -/
def fsNew : FS := ⟨[("a.txt", "NEW")], [], ["a.txt"]⟩

/-- A creation response whose first fenced block lacks a `### FILE:` /
`### FOLDER:` marker and whose second block is a well-formed FILE
directive. -/
def mixedResponse : String := "```\nhello\n```\n```\n### FILE: a.txt\nNEW\n```"

/-- C1 counterexample: in a response whose first fenced block lacks the
marker line, the response is not treated as a parse failure — the
well-formed FILE directive of the second block is still applied
(`a.txt` is overwritten). -/
theorem C1_counterexample_salvaged_block :
    matchDirective ((findBlocks mixedResponse.data).headD []) = none ∧
    applyCreationOnce mixedResponse fsOld = some fsNew ∧
    fsNew ≠ fsOld := by decide

/-- C1 amended: directive parsing is per-block, not all-or-nothing: a
fenced block lacking the marker line is skipped while the other blocks
are applied, and the whole response is a parse failure exactly when it
contains no fenced code blocks at all. -/
theorem C1_per_block_salvage (creation_response : String) (fs : FS) :
    (applyCreationOnce creation_response fs = none ↔
      findBlocks creation_response.data = []) ∧
    (∀ code, matchDirective code = none → applyBlock fs code = fs) ∧
    (findBlocks creation_response.data ≠ [] →
      applyCreationOnce creation_response fs =
        some ((findBlocks creation_response.data).foldl applyBlock fs)) := by
  refine ⟨?_, ?_, ?_⟩
  · unfold applyCreationOnce
    by_cases hb : findBlocks creation_response.data = []
    · rw [if_pos (List.isEmpty_eq_true.mpr hb)]
      simp [hb]
    · rw [if_neg (by simp [hb])]
      simp [hb]
  · intro code hm
    unfold applyBlock
    rw [hm]
  · intro hne
    unfold applyCreationOnce
    rw [if_neg (by simp [hne])]

/-- Witness for C1 (amended): on `mixedResponse` the parse does not
fail and the block list is folded over the filesystem. -/
theorem C1_per_block_salvage_witness :
    applyCreationOnce mixedResponse fsOld =
      some ((findBlocks mixedResponse.data).foldl applyBlock fsOld) :=
  (C1_per_block_salvage mixedResponse fsOld).2.2 (by decide)

/-- The creation response of C2: exactly one well-formed fenced block
`### FILE: a/b.txt` with content `"X"`. -/
def c2Response : String := "```\n### FILE: a/b.txt\nX\n```"

/-- A filesystem on which neither `a/b.txt` nor `a` exists (both paths
are write-permitted, so only the existence check is in play). -/
def c2FS : FS := ⟨[], [], ["a/b.txt", "a"]⟩

/-- C2: parsing the response yields the single FILE directive with path
`a/b.txt` and content `"X"`, but applying it to a filesystem where
`a/b.txt` does not yet exist creates nothing: the executor's
`os.path.exists(path)` pre-check skips the directive, so neither the
file nor the parent directory `a/` is created. -/
theorem C2_new_file_never_created :
    findBlocks c2Response.data = ["### FILE: a/b.txt\nX\n".data] ∧
    matchDirective "### FILE: a/b.txt\nX\n".data =
      some (ItemType.file, "a/b.txt".data) ∧
    String.mk (pyStrip (stripFirstFileMarker "### FILE: a/b.txt\nX\n".data)) = "X" ∧
    c2FS.existsPath "a/b.txt" = false ∧
    applyCreationOnce c2Response c2FS = some c2FS := by decide

/-- An empty filesystem. -/
def emptyFS : FS := ⟨[], [], []⟩

/-- C4 counterexample: with a response containing no fenced code blocks
and an oracle that keeps returning the same unparsable text, the sleeps
are `1, 2, 4` seconds — the backoff starts at `2 ** 0 = 1` second, not
at 2 seconds — and 4 parse attempts are performed in total (the initial
one plus 3 retries), not 3. -/
theorem C4_counterexample_backoff_and_attempts :
    (apply_creation_steps (fun _ => some "no blocks") "no blocks" emptyFS 0).sleeps
      = [1, 2, 4] ∧
    (apply_creation_steps (fun _ => some "no blocks") "no blocks" emptyFS 0).sleeps.head?
      ≠ some 2 ∧
    (apply_creation_steps (fun _ => some "no blocks") "no blocks" emptyFS 0).attempts
      = 4 ∧
    (apply_creation_steps (fun _ => some "no blocks") "no blocks" emptyFS 0).attempts
      ≠ 3 := by decide

/-- A response with no fenced code blocks makes the parse-and-apply pass
fail. -/
theorem applyCreationOnce_none {creation_response : String} {fs : FS}
    (h : findBlocks creation_response.data = []) :
    applyCreationOnce creation_response fs = none := by
  unfold applyCreationOnce
  rw [if_pos (List.isEmpty_eq_true.mpr h)]

/-- One failing round of `applyCreationFuel` with retries remaining and
a reply from the oracle: sleep `2 ** retry_count` seconds and recurse. -/
theorem applyCreationFuel_fail_step (ai : Nat → Option String) (fuel : Nat)
    {creation_response : String} {fs : FS} {retry_count : Nat} {r : String}
    (h : applyCreationOnce creation_response fs = none)
    (hrc : retry_count < 3) (hai : ai retry_count = some r) :
    applyCreationFuel ai (fuel + 1) creation_response fs retry_count =
      ⟨(applyCreationFuel ai fuel r fs (retry_count + 1)).success,
       (applyCreationFuel ai fuel r fs (retry_count + 1)).fs,
       2 ^ retry_count :: (applyCreationFuel ai fuel r fs (retry_count + 1)).sleeps,
       (applyCreationFuel ai fuel r fs (retry_count + 1)).attempts + 1,
       (applyCreationFuel ai fuel r fs (retry_count + 1)).echoed⟩ := by
  rw [applyCreationFuel, h]
  dsimp only
  rw [if_pos hrc, hai]

/-- `applyCreationFuel` with retries exhausted: report failure and echo
the unparsable response. -/
theorem applyCreationFuel_exhausted (ai : Nat → Option String) (fuel : Nat)
    {creation_response : String} {fs : FS} {retry_count : Nat}
    (h : applyCreationOnce creation_response fs = none)
    (hrc : ¬ retry_count < 3) :
    applyCreationFuel ai fuel creation_response fs retry_count =
      ⟨false, fs, [], 1, some creation_response⟩ := by
  cases fuel with
  | zero =>
    rw [applyCreationFuel, h]
    dsimp only
    rw [if_neg hrc]
  | succ k =>
    rw [applyCreationFuel, h]
    dsimp only
    rw [if_neg hrc]

/-- C4 amended: when the whole creation parse fails, the round-trip is
re-issued, sleeping `2 ** retry_count` seconds before each retry — 1 s,
2 s, 4 s, an exponential backoff starting at 1 second — for at most 3
retries, i.e. 4 parse attempts in total; after exhausting the retries a
terminal failure is reported and the last unparsable response is echoed
for inspection. -/
theorem C4_retry_backoff_and_echo (ai : Nat → Option String)
    (creation_response r0 r1 r2 : String) (fs : FS)
    (h : findBlocks creation_response.data = [])
    (hai0 : ai 0 = some r0) (h0 : findBlocks r0.data = [])
    (hai1 : ai 1 = some r1) (h1 : findBlocks r1.data = [])
    (hai2 : ai 2 = some r2) (h2 : findBlocks r2.data = []) :
    apply_creation_steps ai creation_response fs 0 =
      ⟨false, fs, [1, 2, 4], 4, some r2⟩ := by
  show applyCreationFuel ai 3 creation_response fs 0 = _
  rw [show (3 : Nat) = 2 + 1 from rfl,
    applyCreationFuel_fail_step ai 2 (applyCreationOnce_none h) (by omega) hai0,
    show (2 : Nat) = 1 + 1 from rfl,
    applyCreationFuel_fail_step ai 1 (applyCreationOnce_none h0) (by omega) hai1,
    show (1 : Nat) = 0 + 1 from rfl,
    applyCreationFuel_fail_step ai 0 (applyCreationOnce_none h1) (by omega) hai2,
    applyCreationFuel_exhausted ai 0 (applyCreationOnce_none h2) (by omega)]
  rfl

/-- Witness for C4 at a concrete always-unparsable oracle. -/
theorem C4_retry_backoff_and_echo_witness :
    apply_creation_steps (fun n => some ("bad " ++ toString n)) "bad start" emptyFS 0 =
      ⟨false, emptyFS, [1, 2, 4], 4, some "bad 2"⟩ :=
  C4_retry_backoff_and_echo (fun n => some ("bad " ++ toString n))
    "bad start" "bad 0" "bad 1" "bad 2" emptyFS
    (by decide) (by decide) (by decide) (by decide) (by decide) (by decide) (by decide)

/-- With no `File:` marker among the lines and no file currently open,
the edit-instruction scan produces nothing. -/
theorem peiStep_no_marker : ∀ (lines : List (List Char)) (ci : List (List Char)),
    (∀ line ∈ lines, dropLit "File: ".data line = none) →
    peiStep lines none ci [] = [] := by
  intro lines
  induction lines with
  | nil => intro ci _; rfl
  | cons line rest ih =>
    intro ci h
    have hline := h line (List.mem_cons_self line rest)
    have hrest : ∀ l ∈ rest, dropLit "File: ".data l = none :=
      fun l hl => h l (List.mem_cons_of_mem line hl)
    unfold peiStep
    rw [hline]
    dsimp only
    rw [if_neg (by simp [pyTruthy])]
    exact ih ci hrest

/-- With an empty instruction map, the edit applier passes every
original file through and issues no model round-trips. -/
theorem aeiStep_empty_map (ai : String → Option String) :
    ∀ (original_files : List (String × String))
      (acc : List (String × String) × List String),
    aeiStep ai [] acc original_files = (acc.1 ++ original_files, acc.2) := by
  intro original_files
  induction original_files with
  | nil => intro acc; simp [aeiStep]
  | cons kv rest ih =>
    intro acc
    obtain ⟨p, c⟩ := kv
    unfold aeiStep
    rw [show dictLookup [] p = none from rfl]
    dsimp only
    rw [ih]
    simp

/-- Everything already accumulated stays in the applier's output. -/
theorem aeiStep_mono (ai : String → Option String)
    (edit_instructions : List (String × String)) (q : String × String) :
    ∀ (original_files : List (String × String))
      (acc : List (String × String) × List String),
    q ∈ acc.1 → q ∈ (aeiStep ai edit_instructions acc original_files).1 := by
  intro original_files
  induction original_files with
  | nil => intro acc hq; exact hq
  | cons kv rest ih =>
    intro acc hq
    obtain ⟨p, c⟩ := kv
    unfold aeiStep
    cases hl : dictLookup edit_instructions p with
    | none => exact ih _ (List.mem_append_left _ hq)
    | some instr =>
      dsimp only
      cases ai (mkApplyPrompt p c instr) with
      | none => exact ih _ hq
      | some r =>
        dsimp only
        by_cases hr : r = ""
        · rw [if_pos hr]; exact ih _ hq
        · rw [if_neg hr]; exact ih _ (List.mem_append_left _ hq)

/-- A file absent from the instruction map is passed through with its
original content. -/
theorem aeiStep_frame_mem (ai : String → Option String)
    (edit_instructions : List (String × String)) (p c : String)
    (hl : dictLookup edit_instructions p = none) :
    ∀ (original_files : List (String × String))
      (acc : List (String × String) × List String),
    (p, c) ∈ original_files →
    (p, c) ∈ (aeiStep ai edit_instructions acc original_files).1 := by
  intro original_files
  induction original_files with
  | nil => intro acc hmem; cases hmem
  | cons kv rest ih =>
    intro acc hmem
    obtain ⟨q, d⟩ := kv
    rcases List.mem_cons.mp hmem with heq | htail
    · obtain ⟨hq, hd⟩ := Prod.mk.injEq p c q d ▸ heq
      subst hq
      subst hd
      unfold aeiStep
      rw [hl]
      exact aeiStep_mono ai edit_instructions (p, c) rest _
        (List.mem_append_right _ (List.mem_singleton.mpr rfl))
    · unfold aeiStep
      cases hq : dictLookup edit_instructions q with
      | none => exact ih _ htail
      | some instr =>
        dsimp only
        cases ai (mkApplyPrompt q d instr) with
        | none => exact ih _ htail
        | some r =>
          dsimp only
          by_cases hr : r = ""
          · rw [if_pos hr]; exact ih _ htail
          · rw [if_neg hr]; exact ih _ htail

/-- A file absent from the instruction map is never among the paths
sent to the model. -/
theorem aeiStep_frame_sent (ai : String → Option String)
    (edit_instructions : List (String × String)) (p : String)
    (hl : dictLookup edit_instructions p = none) :
    ∀ (original_files : List (String × String))
      (acc : List (String × String) × List String),
    p ∉ acc.2 → p ∉ (aeiStep ai edit_instructions acc original_files).2 := by
  intro original_files
  induction original_files with
  | nil => intro acc hp; exact hp
  | cons kv rest ih =>
    intro acc hp
    obtain ⟨q, d⟩ := kv
    unfold aeiStep
    cases hq : dictLookup edit_instructions q with
    | none => exact ih _ hp
    | some instr =>
      have hpq : p ≠ q := by
        intro he
        rw [← he, hl] at hq
        cases hq
      have hp2 : p ∉ acc.2 ++ [q] := by
        intro hmem
        rcases List.mem_append.mp hmem with hA | hB
        · exact hp hA
        · exact hpq (List.mem_singleton.mp hB)
      dsimp only
      cases ai (mkApplyPrompt q d instr) with
      | none => exact ih _ hp2
      | some r =>
        dsimp only
        by_cases hr : r = ""
        · rw [if_pos hr]; exact ih _ hp2
        · rw [if_neg hr]; exact ih _ hp2

/-- C8: an edit response with no `File:` marker lines parses to an
empty EditInstructionMap (not an error); applying an empty map returns
every original file unchanged with no model round-trip; and any file
whose path is absent from the map is passed through with its original
content and is never re-sent to the model. -/
theorem C8_empty_map_and_passthrough (response : String)
    (ai : String → Option String)
    (edit_instructions original_files : List (String × String)) (p c : String)
    (hresp : ∀ line ∈ splitOnChar '\n' response.data, dropLit "File: ".data line = none)
    (hp : (p, c) ∈ original_files)
    (hl : dictLookup edit_instructions p = none) :
    parse_edit_instructions response = [] ∧
    apply_edit_instructions ai [] original_files = (original_files, []) ∧
    (p, c) ∈ (apply_edit_instructions ai edit_instructions original_files).1 ∧
    p ∉ (apply_edit_instructions ai edit_instructions original_files).2 := by
  refine ⟨?_, ?_, ?_, ?_⟩
  · exact peiStep_no_marker (splitOnChar '\n' response.data) [] hresp
  · show aeiStep ai [] ([], []) original_files = (original_files, [])
    rw [aeiStep_empty_map]
    simp
  · exact aeiStep_frame_mem ai edit_instructions p c hl original_files ([], []) hp
  · exact aeiStep_frame_sent ai edit_instructions p hl original_files ([], [])
      (by simp)

/-- Witness for C8 at a concrete marker-free response, a two-file
original set and a map not mentioning file `a`. -/
theorem C8_empty_map_and_passthrough_witness :
    parse_edit_instructions "hello\nworld" = [] ∧
    apply_edit_instructions (fun _ => none) [] [("a", "1"), ("b", "2")] =
      ([("a", "1"), ("b", "2")], []) ∧
    ("a", "1") ∈ (apply_edit_instructions (fun _ => none)
      [("x", "i")] [("a", "1"), ("b", "2")]).1 ∧
    "a" ∉ (apply_edit_instructions (fun _ => none)
      [("x", "i")] [("a", "1"), ("b", "2")]).2 :=
  C8_empty_map_and_passthrough "hello\nworld" (fun _ => none)
    [("x", "i")] [("a", "1"), ("b", "2")] "a" "1"
    (by decide) (by decide) (by decide)

/-- A key that fails the `any` membership probe has no stored value. -/
theorem dictLookup_eq_none_of_any_eq_false {d : List (String × String)} {k : String}
    (h : d.any (fun kv => kv.1 == k) = false) : dictLookup d k = none := by
  unfold dictLookup
  rw [List.find?_eq_none.mpr]
  · rfl
  · intro kv hkv
    rw [List.any_eq_false] at h
    simpa using h kv hkv

/-- Unfolding `dictLookup` one pair at a time. -/
theorem dictLookup_cons (a b : String) (rest : List (String × String)) (k : String) :
    dictLookup ((a, b) :: rest) k = if a = k then some b else dictLookup rest k := by
  unfold dictLookup
  rw [List.find?_cons]
  by_cases h : a = k
  · subst h
    simp
  · have hb : ((a, b).1 == k) = false := by simpa using h
    rw [hb, if_neg h]

/-- `dictLookup` distributes over append through `Option.or`. -/
theorem dictLookup_append (d1 d2 : List (String × String)) (k : String) :
    dictLookup (d1 ++ d2) k = (dictLookup d1 k).or (dictLookup d2 k) := by
  unfold dictLookup
  rw [List.find?_append]
  cases d1.find? (fun kv => kv.1 == k) with
  | none => simp
  | some kv => simp

/-- Looking up a different key is unaffected by the in-place update. -/
theorem dictLookup_map_replace (d : List (String × String)) (k0 v0 k : String)
    (hne : k ≠ k0) :
    dictLookup (d.map (fun kv => if kv.1 == k0 then (k0, v0) else kv)) k =
      dictLookup d k := by
  induction d with
  | nil => rfl
  | cons kv rest ih =>
    obtain ⟨a, b⟩ := kv
    simp only [List.map_cons]
    by_cases ha : a = k0
    · subst ha
      rw [show (if ((a, b).1 == a) = true then (a, v0) else (a, b)) = (a, v0) by simp]
      rw [dictLookup_cons, dictLookup_cons,
        if_neg (fun h => hne h.symm), if_neg (fun h => hne h.symm)]
      exact ih
    · rw [show (if ((a, b).1 == k0) = true then (k0, v0) else (a, b)) = (a, b) by
        simp [ha]]
      rw [dictLookup_cons, dictLookup_cons]
      by_cases hak : a = k
      · rw [if_pos hak, if_pos hak]
      · rw [if_neg hak, if_neg hak]
        exact ih

/-- Updating the stored value: the updated key reads back the new
value. -/
theorem dictLookup_map_replace_self (d : List (String × String)) (k0 v0 : String)
    (h : d.any (fun kv => kv.1 == k0) = true) :
    dictLookup (d.map (fun kv => if kv.1 == k0 then (k0, v0) else kv)) k0 =
      some v0 := by
  induction d with
  | nil => cases h
  | cons kv rest ih =>
    obtain ⟨a, b⟩ := kv
    simp only [List.map_cons]
    by_cases ha : a = k0
    · subst ha
      rw [show (if ((a, b).1 == a) = true then (a, v0) else (a, b)) = (a, v0) by simp]
      rw [dictLookup_cons, if_pos rfl]
    · have htail : rest.any (fun kv => kv.1 == k0) = true := by
        rw [List.any_cons] at h
        simpa [ha] using h
      rw [show (if ((a, b).1 == k0) = true then (k0, v0) else (a, b)) = (a, b) by
        simp [ha]]
      rw [dictLookup_cons, if_neg ha]
      exact ih htail

/-- Python-dict lookup after `d[k0] = v0`: the inserted key reads back
`v0`, every other key is unaffected. -/
theorem dictLookup_dictInsert (d : List (String × String)) (k0 v0 k : String) :
    dictLookup (dictInsert d k0 v0) k =
      if k = k0 then some v0 else dictLookup d k := by
  unfold dictInsert
  by_cases hmem : d.any (fun kv => kv.1 == k0) = true
  · rw [if_pos hmem]
    by_cases hk : k = k0
    · subst hk
      rw [if_pos rfl]
      exact dictLookup_map_replace_self d k v0 hmem
    · rw [if_neg hk]
      exact dictLookup_map_replace d k0 v0 k hk
  · rw [if_neg hmem]
    rw [dictLookup_append]
    rw [dictLookup_cons]
    by_cases hk : k = k0
    · subst hk
      rw [dictLookup_eq_none_of_any_eq_false (Bool.eq_false_iff.mpr hmem)]
      rw [if_pos rfl, if_pos rfl]
      rfl
    · rw [if_neg (fun h => hk h.symm), if_neg hk]
      show (dictLookup d k).or (dictLookup [] k) = dictLookup d k
      cases dictLookup d k with
      | none => rfl
      | some v => rfl

/-- Folding Python-dict insertion over a sequence of pairs. -/
def insertAll (d : List (String × String)) (segs : List (String × String)) :
    List (String × String) :=
  segs.foldl (fun acc kv => dictInsert acc kv.1 kv.2) d

/-- `lastAssoc` unfolded one pair at a time: later pairs win. -/
theorem lastAssoc_cons (k0 v0 : String) (rest : List (String × String)) (k : String) :
    lastAssoc ((k0, v0) :: rest) k =
      (lastAssoc rest k).or (if k0 = k then some v0 else none) := by
  unfold lastAssoc
  rw [List.reverse_cons, List.find?_append]
  have hone : [(k0, v0)].find? (fun kv => kv.1 == k) =
      if k0 = k then some (k0, v0) else none := by
    rw [List.find?_cons]
    by_cases h : k0 = k
    · have : ((k0, v0).1 == k) = true := by simpa using h
      rw [this, if_pos h]
    · have : ((k0, v0).1 == k) = false := by simpa using h
      rw [this, if_neg h]
      rfl
  rw [hone]
  cases rest.reverse.find? (fun kv => kv.1 == k) with
  | none =>
    by_cases h : k0 = k
    · rw [if_pos h, if_pos h]; rfl
    · rw [if_neg h, if_neg h]; rfl
  | some kv => rfl

/-- Lookup in an insertion fold: the last inserted value for the key
wins; keys never inserted fall back to the base dict. -/
theorem dictLookup_insertAll : ∀ (segs : List (String × String))
    (d : List (String × String)) (k : String),
    dictLookup (insertAll d segs) k = (lastAssoc segs k).or (dictLookup d k) := by
  intro segs
  induction segs with
  | nil => intro d k; rfl
  | cons kv rest ih =>
    intro d k
    obtain ⟨k0, v0⟩ := kv
    show dictLookup (insertAll (dictInsert d k0 v0) rest) k = _
    rw [ih, dictLookup_dictInsert, lastAssoc_cons]
    cases hla : lastAssoc rest k with
    | some v => rfl
    | none =>
      by_cases hk : k = k0
      · subst hk
        rw [if_pos rfl, if_pos rfl]
        rfl
      · rw [if_neg hk, if_neg (fun h => hk h.symm)]
        rfl

/-- Insertion folds split over appended segment lists. -/
theorem insertAll_append (d l1 l2 : List (String × String)) :
    insertAll d (l1 ++ l2) = insertAll (insertAll d l1) l2 := by
  unfold insertAll
  exact List.foldl_append _ _ _ _

/-- Folding a flush segment into a dict is the dict flush: both respect
the truthiness check. -/
theorem insertAll_flushSeg (cf : Option String) (ci : List (List Char))
    (acc : List (String × String)) :
    insertAll acc (flushSeg cf ci) = flushDict cf ci acc := by
  cases cf with
  | none => rfl
  | some f =>
    unfold flushSeg flushDict
    dsimp only
    by_cases hf : f.isEmpty
    · rw [if_pos hf, if_pos hf]
      rfl
    · rw [if_neg hf, if_neg hf]
      rfl

/-- The dict built by the edit-instruction scan is the insertion fold of
its segment sequence. -/
theorem peiStep_eq_insertAll : ∀ (lines : List (List Char)) (cf : Option String)
    (ci : List (List Char)) (acc : List (String × String)),
    peiStep lines cf ci acc = insertAll acc (segRun lines cf ci) := by
  intro lines
  induction lines with
  | nil =>
    intro cf ci acc
    exact (insertAll_flushSeg cf ci acc).symm
  | cons line rest ih =>
    intro cf ci acc
    unfold peiStep segRun
    cases hdl : dropLit "File: ".data line with
    | some after =>
      dsimp only
      rw [ih, insertAll_append, insertAll_flushSeg]
    | none =>
      dsimp only
      by_cases hc : ¬ (pyStrip line).isEmpty ∧ pyTruthy cf
      · rw [if_pos hc, if_pos hc]
        exact ih cf (ci ++ [pyStrip line]) acc
      · rw [if_neg hc, if_neg hc]
        exact ih cf ci acc

/-- The keys of a Python dict after insertion: unchanged when the key
was present, extended by the new key otherwise. -/
theorem keys_dictInsert (d : List (String × String)) (k v : String) :
    (dictInsert d k v).map Prod.fst =
      if d.any (fun kv => kv.1 == k) then d.map Prod.fst
      else d.map Prod.fst ++ [k] := by
  unfold dictInsert
  by_cases hmem : d.any (fun kv => kv.1 == k) = true
  · rw [if_pos hmem, if_pos hmem, List.map_map]
    apply List.map_congr_left
    intro kv _
    by_cases hk : kv.1 = k
    · simp [hk]
    · simp [hk]
  · rw [if_neg hmem, if_neg hmem, List.map_append]
    rfl

/-- Python-dict insertion preserves key uniqueness. -/
theorem nodup_keys_dictInsert {d : List (String × String)} (k v : String)
    (h : (d.map Prod.fst).Nodup) : ((dictInsert d k v).map Prod.fst).Nodup := by
  rw [keys_dictInsert]
  by_cases hmem : d.any (fun kv => kv.1 == k) = true
  · rw [if_pos hmem]
    exact h
  · rw [if_neg hmem]
    rw [List.nodup_append]
    refine ⟨h, List.nodup_singleton k, ?_⟩
    intro a ha hb
    rw [List.mem_singleton.mp hb] at ha
    obtain ⟨kv, hkv, hfst⟩ := List.mem_map.mp ha
    have hmem2 : d.any (fun kv => kv.1 == k) = false := Bool.eq_false_iff.mpr hmem
    rw [List.any_eq_false] at hmem2
    exact hmem2 kv hkv (by simpa using hfst)

/-- Insertion folds preserve key uniqueness. -/
theorem nodup_keys_insertAll : ∀ (segs d : List (String × String)),
    (d.map Prod.fst).Nodup → ((insertAll d segs).map Prod.fst).Nodup := by
  intro segs
  induction segs with
  | nil => intro d h; exact h
  | cons kv rest ih =>
    intro d h
    exact ih (dictInsert d kv.1 kv.2) (nodup_keys_dictInsert kv.1 kv.2 h)

/-- C10: when an edit response contains two or more `File:` marker lines
naming the same path, the parsed EditInstructionMap maps that path to
the instruction block of the *last* such marker (`lastAssoc` over the
marker-ordered segments — later markers overwrite earlier ones), and
the map's keys are always unique. -/
theorem C10_last_marker_wins (response : String) (p : String)
    (hdup : 2 ≤ (parse_edit_segments response).countP (fun kv => kv.1 == p)) :
    dictLookup (parse_edit_instructions response) p =
      lastAssoc (parse_edit_segments response) p ∧
    ((parse_edit_instructions response).map Prod.fst).Nodup := by
  have hrepr : parse_edit_instructions response =
      insertAll [] (parse_edit_segments response) :=
    peiStep_eq_insertAll (splitOnChar '\n' response.data) none [] []
  constructor
  · rw [hrepr, dictLookup_insertAll]
    cases lastAssoc (parse_edit_segments response) p with
    | some v => rfl
    | none => rfl
  · rw [hrepr]
    exact nodup_keys_insertAll (parse_edit_segments response) [] List.nodup_nil

/-- Witness for C10 at a concrete response with two `File: a` markers:
the parsed map holds the block of the second marker only. -/
theorem C10_last_marker_wins_witness :
    dictLookup (parse_edit_instructions "File: a\n1. x\nFile: a\n2. y") "a" =
      lastAssoc (parse_edit_segments "File: a\n1. x\nFile: a\n2. y") "a" ∧
    ((parse_edit_instructions "File: a\n1. x\nFile: a\n2. y").map Prod.fst).Nodup :=
  C10_last_marker_wins "File: a\n1. x\nFile: a\n2. y" "a" (by decide)
